import Mathlib

/-!
Verification development for the `ibc` console trading monitor.

The definitions below are a shallow embedding of the Python sources:
`ibc/market_data.py` (market-data query cache and chart resampling),
`ibc/data_models.py` (Account / Position / Order object model) and
`ibc/ib_service.py` (the `IBBroker` reconciliation engine).

Modelling conventions:
* Python `float` values are modelled exactly as rationals (`ℚ`); the float
  value `nan` is modelled by a dedicated constructor where the code tests
  for it (`Position.update_pnl`).  String-to-number parsing at the broker
  boundary (`float(acs.value)`, `int(acs.value)`) is modelled by carrying
  the numeric payload directly.
* `datetime` values are modelled as an abstract tick counter `Time := ℕ`;
  each mutating call receives the current time as an explicit argument.
* Python object identity (`is`), used by the position/chart-data
  association, is modelled by a `pid : ℕ` field that is fresh for every
  `Position` constructed.
* `ib_insync` contract `repr` equality, used as the cache key in
  `Server.find_query`, is modelled as structural equality of a `Contract`
  record that includes the Python class name (`Stock` vs plain
  `Contract`), since the textual repr of two contracts coincides exactly
  when the class and the field values coincide.
* A Python `raise` is modelled with `Except` / an error component threaded
  through the state so that partially-applied mutations remain observable.
-/

/-- Abstract time stamps standing for `datetime` values. -/
abbrev Time := Nat

/-- Python runtime errors raised by the embedded code paths. -/
inductive PyErr where
  /-- the bare `ValueError()` raised by `IBBroker.refresh_account` on an
  account-code mismatch; the spec names this condition `AccountMismatch`. -/
  | accountMismatch
  /-- the `Exception("IB account selection error")` raised by
  `IBBroker.get_account_code` when no non-`all` summary row exists. -/
  | accountSelectionError
  /-- the `TypeError` raised when iterating `for i, q in self.queries:`
  attempts to unpack a `Query` object into a pair. -/
  | typeError
deriving DecidableEq

/-- Embedded Python float that may be the IEEE `nan` payload; the code only
distinguishes `nan` from numeric values (via `math.isnan`), never any other
IEEE behaviour, so numeric floats are carried exactly as rationals. -/
inductive PFloat where
  | nan
  | num (q : ℚ)
deriving DecidableEq

/-- Truthiness of an optional float as used by `if current_price:` in
`IBBroker.refresh_account`: `None` and `0.0` are falsy. -/
def pyTruthy : Option ℚ → Bool
  | none => false
  | some q => q != 0

/-! ## market_data.py -/

/-- Duration enum of `ibc/market_data.py`. -/
inductive Duration where
  | DAY
  | MONTH
deriving DecidableEq

/-- An `ib_insync` contract as observed through the fields the program
reads; `cls` records the Python class (`"Stock"`, `"Contract"`, ...) so
that structural equality of this record models `repr` equality. -/
structure Contract where
  cls : String
  symbol : String
  secType : String
  exchange : String
  currency : String
  conId : ℤ
  lastTradeDateOrContractMonth : String
  strike : ℚ
  right : String
deriving DecidableEq

/-- The contract built by `ib.Stock(symbol, exchange, 'USD')`. -/
def mkStock (symbol exchange currency : String) : Contract :=
  { cls := "Stock", symbol := symbol, secType := "STK", exchange := exchange,
    currency := currency, conId := 0, lastTradeDateOrContractMonth := "",
    strike := 0, right := "" }

/-- One historical bar delivered by `reqHistoricalData`. -/
structure Bar where
  open_ : ℚ
  close : ℚ
  date : Time
deriving DecidableEq

/-- A market-data query (`market_data.Query`): cache key is the pair of
the contract and the duration; `ib_bars` holds the live bar series. -/
structure Query where
  symbol : String
  duration : Duration
  contract : Contract
  ib_bars : List Bar
deriving DecidableEq

/-- Embeds `StockQuery.__init__`: a fresh SMART/USD stock contract. -/
def StockQuery (symbol : String) (duration : Duration) : Query :=
  { symbol := symbol, duration := duration,
    contract := mkStock symbol "SMART" "USD", ib_bars := [] }

/-- Embeds `ContractQuery.__init__`: wraps an existing contract, rewriting
a `NASDAQ` exchange to `SMART`. -/
def ContractQuery (c : Contract) (duration : Duration) : Query :=
  { symbol := c.symbol, duration := duration,
    contract := if c.exchange = "NASDAQ" then { c with exchange := "SMART" } else c,
    ib_bars := [] }

/-- Embeds `Query.__extract_bar_average`: the open/close midpoint when the
close is truthy (non-zero), else the open, times 100 for options. -/
def Query.extractBarAverage (q : Query) (b : Bar) : ℚ :=
  let average := if b.close ≠ 0 then (b.open_ + b.close) / 2 else b.open_
  average * (if q.contract.secType = "OPT" then 100 else 1)

/-- Embeds `Query.get_values`. -/
def Query.getValues (q : Query) : List ℚ :=
  q.ib_bars.map q.extractBarAverage

/-- Embeds `Query.get_last_value` (`None` when no bars arrived yet). -/
def Query.getLastValue (q : Query) : Option ℚ :=
  q.ib_bars.getLast?.map q.extractBarAverage

/-- Embeds `Query.get_values_start_time`; the `strptime(str(date))`
round-trip of the bar date is the identity in this model, and
`datetime.now()` is the supplied clock value. -/
def Query.getValuesStartTime (q : Query) (now : Time) : Time :=
  match q.ib_bars.head? with
  | some b => b.date
  | none => now

/-- Embeds `Query.get_values_end_time`. -/
def Query.getValuesEndTime (q : Query) (now : Time) : Time :=
  match q.ib_bars.getLast? with
  | some b => b.date
  | none => now

/-- Chart data value object of `market_data.py`. -/
structure ChartData where
  values : List ℚ
  time_from : Time
  time_to : Time
deriving DecidableEq

/-- Embeds `Query.get_chart_data`. -/
def Query.getChartData (q : Query) (now : Time) : ChartData :=
  { values := q.getValues, time_from := q.getValuesStartTime now,
    time_to := q.getValuesEndTime now }

/-- Bucket boundary `int((1. * n / length) * i)` of `ChartData.resample`,
taken exactly: `⌊i * n / length⌋` (the float index arithmetic of the
source is modelled without rounding error). -/
def bIdx (n length i : ℕ) : ℕ :=
  i * n / length

/-- The slice `values[i1:i2]` of a Python list (empty when `i2 ≤ i1`). -/
def pySlice (l : List ℚ) (i1 i2 : ℕ) : List ℚ :=
  (l.drop i1).take (i2 - i1)

/-- Embeds `ChartData.resample`.  The loop body computes the two bucket
boundaries, clamps the upper one to the list length, and appends the
arithmetic mean of the slice; the division is by the signed difference
`i2 - i1` exactly as in the source (the source would raise
`ZeroDivisionError` on an empty bucket; empty buckets are proved
impossible for `0 < length < n`, where the claims live). -/
def ChartData.resample (cd : ChartData) (length : ℕ) : List ℚ :=
  if length ≥ cd.values.length then cd.values
  else
    (List.range length).map (fun i =>
      let n := cd.values.length
      let i1 := bIdx n length i
      let i2 := min (bIdx n length (i + 1)) n
      (pySlice cd.values i1 i2).sum / ((i2 : ℚ) - (i1 : ℚ)))

/-- The market-data cache (`market_data.Server`); the broker connection is
supplied to the operations that need it as an explicit oracle. -/
structure Server where
  queries : List Query
deriving DecidableEq

/-- Embeds `Server.find_query`: first cached query whose contract repr and
duration match. -/
def Server.findQuery (srv : Server) (q : Query) : Option Query :=
  (srv.queries.filter (fun t =>
    decide (t.contract = q.contract ∧ t.duration = q.duration))).head?

/-- Embeds `Server.add_query`: return the cached query if one matches,
otherwise default an empty exchange to `SMART`, request the bars from the
broker (`hist` plays `app.reqHistoricalData` keyed by contract and
duration) and append the new query to the cache. -/
def Server.addQuery (srv : Server) (hist : Contract → Duration → List Bar)
    (q : Query) : Query × Server :=
  match srv.findQuery q with
  | some existing => (existing, srv)
  | none =>
      let c := if q.contract.exchange = "" then { q.contract with exchange := "SMART" }
               else q.contract
      let q' := { q with contract := c, ib_bars := hist c q.duration }
      (q', { queries := srv.queries ++ [q'] })

/-- Embeds `Server.query` (an alias for `add_query`). -/
def Server.query (srv : Server) (hist : Contract → Duration → List Bar)
    (q : Query) : Query × Server :=
  srv.addQuery hist q

/-- Embeds `Server.remove_query`.  When no cached query matches, the guard
returns immediately.  When one matches the cache is non-empty and the loop
`for i, q in self.queries:` unpacks the first `Query` object into a pair,
raising `TypeError` before any cancellation or deletion can happen. -/
def Server.removeQuery (srv : Server) (q : Query) : Except PyErr Server :=
  match srv.findQuery q with
  | none => .ok srv
  | some _ => .error .typeError

/-! ## data_models.py -/

/-- Order status enum of `ibc/data_models.py`. -/
inductive OrderStatus where
  | NEW
  | SENT
  | ACTIVE
  | OK
  | CANCD
  | ERROR
deriving DecidableEq

/-- Order action enum of `ibc/data_models.py`. -/
inductive OrderAction where
  | BUY
  | SELL
deriving DecidableEq

/-- Python `action.name` of the enum member. -/
def OrderAction.name : OrderAction → String
  | .BUY => "BUY"
  | .SELL => "SELL"

/-- A `Position` row; `pid` models Python object identity (used by the
`is` comparison in `IBBroker.find_position_chart_data_index`) and is
assigned freshly whenever a `Position` is constructed. -/
structure Position where
  pid : ℕ
  symbol : String
  qty : ℤ
  price : ℚ
  value : ℚ
  current_price : ℚ
  current_value : ℚ
  profit : ℚ
  profit_margin : ℚ
  created_at : Time
  updated_at : Time
deriving DecidableEq

/-- Embeds `Position.__init__`: cost-basis fields from the arguments, the
derived P&L seeded to zero with the current price equal to the entry
price. -/
def Position.create (pid : ℕ) (symbol : String) (qty : ℤ) (price value : ℚ)
    (now : Time) : Position :=
  { pid := pid, symbol := symbol, qty := qty, price := price, value := value,
    current_price := price, current_value := value, profit := 0,
    profit_margin := 0, created_at := now, updated_at := now }

/-- Embeds `Position.update`. -/
def Position.update (p : Position) (qty : ℤ) (price value : ℚ) (now : Time) :
    Position :=
  { p with qty := qty, price := price, value := value, updated_at := now }

/-- Embeds `Position.update_pnl`: a no-op unless `last_price` is a number
(neither `None` nor `nan`); otherwise recompute the derived fields with
the long/short profit sign convention and a zero margin when the cost
basis is zero. -/
def Position.update_pnl (p : Position) (last_price : Option PFloat)
    (now : Time) : Position :=
  match last_price with
  | some (.num lp) =>
      let current_value := |(p.qty : ℚ) * lp|
      let profit := if p.qty ≥ 0 then current_value - p.value
                    else p.value - current_value
      { p with current_price := lp, current_value := current_value,
               profit := profit,
               profit_margin := if p.value ≠ 0 then profit / p.value else 0,
               updated_at := now }
  | _ => p

/-- An `Order` row with its cumulative fill state. -/
structure Order where
  code : String
  symbol : String
  status : OrderStatus
  action : OrderAction
  req_qty : ℤ
  lmt_price : Option ℚ
  sent_at : Option Time
  completed_at : Option Time
  qty : ℚ
  avg_price : ℚ
  commission : ℚ
  ib_id : ℤ
  ib_order_type : Option String
  ib_order_status : Option String
  created_at : Time
  updated_at : Time
deriving DecidableEq

/-- Embeds `Order.__init__` (the human-readable `code` concatenates the
symbol, the action name and the textual creation time). -/
def Order.create (symbol : String) (action : OrderAction) (req_qty : ℤ)
    (lmt_price : Option ℚ) (ib_id : ℤ) (now : Time) : Order :=
  { code := symbol ++ " " ++ action.name ++ " " ++ toString now,
    symbol := symbol, status := .NEW, action := action, req_qty := req_qty,
    lmt_price := lmt_price, sent_at := none, completed_at := none, qty := 0,
    avg_price := 0, commission := 0, ib_id := ib_id, ib_order_type := none,
    ib_order_status := none, created_at := now, updated_at := now }

/-- Embeds `Order.update`. -/
def Order.update (o : Order) (status : OrderStatus)
    (sent_at completed_at : Option Time) (qty avg_price commission : ℚ)
    (ib_order_type ib_order_status : Option String) (now : Time) : Order :=
  { o with status := status, sent_at := sent_at, completed_at := completed_at,
           qty := qty, avg_price := avg_price, commission := commission,
           ib_order_type := ib_order_type, ib_order_status := ib_order_status,
           updated_at := now }

/-- An `Account` row owning its positions and orders; `day_trades_remaining`
carries the parsed numeric value of the broker tag. -/
structure Account where
  code : String
  total_value : ℚ
  cash_value : ℚ
  available_funds : ℚ
  day_trades_remaining : ℚ
  created_at : Time
  updated_at : Time
  positions : List Position
  orders : List Order
deriving DecidableEq

/-- Embeds `Account.update`: all four summary figures are replaced in one
call. -/
def Account.update (a : Account) (total_value cash_value available_funds : ℚ)
    (day_trades_remaining : ℚ) (now : Time) : Account :=
  { a with total_value := total_value, cash_value := cash_value,
           available_funds := available_funds,
           day_trades_remaining := day_trades_remaining, updated_at := now }

/-! ## ib_service.py: broker boundary -/

/-- One `accountSummary()` row; `value` carries the numeric payload of the
tag's string value. -/
structure AccountSummaryRow where
  account : String
  tag : String
  value : ℚ
deriving DecidableEq

/-- One broker position as returned by `app.positions(account)`; the
signed quantity is integral in these flows, so `int(ib_position.position)`
is the identity. -/
structure IBPosition where
  contract : Contract
  position : ℤ
  avgCost : ℚ
deriving DecidableEq

/-- Execution record of a fill. -/
structure Execution where
  price : ℚ
  avgPrice : ℚ
  shares : ℚ
  permId : ℤ
deriving DecidableEq

/-- Commission report of a fill. -/
structure CommissionReport where
  commission : ℚ
deriving DecidableEq

/-- One fill of a trade. -/
structure Fill where
  time : Time
  execution : Execution
  commissionReport : CommissionReport
deriving DecidableEq

/-- The broker-native order carried inside a trade. -/
structure IBOrder where
  action : OrderAction
  totalQuantity : ℤ
  lmtPrice : Option ℚ
  permId : ℤ
  orderType : String
deriving DecidableEq

/-- The broker order-status record (only the `status` string is read). -/
structure IBOrderStatus where
  status : String
deriving DecidableEq

/-- A broker trade snapshot (`ib_insync.Trade`). -/
structure IBTrade where
  contract : Contract
  order : IBOrder
  orderStatus : IBOrderStatus
  fills : List Fill
deriving DecidableEq

/-- The `ib_insync.OrderStatus.DoneStates` set. -/
def doneStates : List String :=
  ["Filled", "Cancelled", "ApiCancelled"]

/-- The `ib_insync.OrderStatus.ActiveStates` set. -/
def activeStates : List String :=
  ["PendingSubmit", "ApiPending", "PreSubmitted", "Submitted"]

/-- Embeds `Trade.isDone`. -/
def IBTrade.isDone (t : IBTrade) : Bool :=
  decide (t.orderStatus.status ∈ doneStates)

/-- Embeds `Trade.isActive`. -/
def IBTrade.isActive (t : IBTrade) : Bool :=
  decide (t.orderStatus.status ∈ activeStates)

/-- The broker connection state observed during one refresh: the summary
snapshot, the position list, the session trades plus the completed-orders
query, the session executions (`app.fills()`), and the two request
oracles (historical bars and contract-details candidate count for the
stock contract built from a symbol/exchange pair). -/
structure Broker where
  summary : List AccountSummaryRow
  positions : List IBPosition
  trades : List IBTrade
  completedTrades : List IBTrade
  fills : List Fill
  hist : Contract → Duration → List Bar
  detailCount : String → String → ℕ

/-- Embeds `IBBroker.get_account_code`: the first summary row whose
account is not `'all'`; `none` models the raised selection error. -/
def getAccountCode (b : Broker) : Option String :=
  (b.summary.find? (fun r => r.account != "all")).map (fun r => r.account)

/-- Canonical symbol of a broker contract: options get the composite
`symbol expiry strike right` key (`str(strike)` is modelled by the exact
textual form of the rational). -/
def canonicalSymbol (c : Contract) : String :=
  if c.secType = "OPT" then
    c.symbol ++ " " ++ c.lastTradeDateOrContractMonth ++ " "
      ++ toString c.strike ++ " " ++ c.right
  else c.symbol

/-! ## ib_service.py: refresh_order -/

/-- Status derivation of `IBBroker.refresh_order` as a function of the
trade's status string: done trades split on `Filled`, active trades split
on `Submitted`, `PendingCancel` is still `ACTIVE`, anything else (e.g.
`Inactive`) is `ERROR`. -/
def mapStatus (s : String) : OrderStatus :=
  if s ∈ doneStates then (if s = "Filled" then .OK else .CANCD)
  else if s ∈ activeStates then (if s = "Submitted" then .ACTIVE else .SENT)
  else if s = "PendingCancel" then .ACTIVE
  else .ERROR

/-- The status `IBBroker.refresh_order` assigns to a trade. -/
def tradeStatus (tr : IBTrade) : OrderStatus :=
  mapStatus tr.orderStatus.status

/-- Per-fill price `fill.execution.price or fill.execution.avgPrice`: the
Python `or` falls back when the price is falsy (zero). -/
def fillPrice (f : Fill) : ℚ :=
  if f.execution.price ≠ 0 then f.execution.price else f.execution.avgPrice

/-- Accumulator of the fill loop in `IBBroker.refresh_order`. -/
structure FillAgg where
  latest : Option Time
  qty : ℚ
  total : ℚ
  commission : ℚ
deriving DecidableEq

/-- One iteration of the fill loop. -/
def fillStep (acc : FillAgg) (f : Fill) : FillAgg :=
  { latest := match acc.latest with
      | none => some f.time
      | some t => if t < f.time then some f.time else some t,
    qty := acc.qty + f.execution.shares,
    total := acc.total + fillPrice f * f.execution.shares,
    commission := acc.commission + f.commissionReport.commission }

/-- The fill loop of `IBBroker.refresh_order` over a given fill list. -/
def aggregateFills (fills : List Fill) : FillAgg :=
  fills.foldl fillStep { latest := none, qty := 0, total := 0, commission := 0 }

/-- Specification-side maximum step on optional times, matching the
`latest_fill_time` update of the fill loop. -/
def maxOpt (o : Option Time) (t : Time) : Option Time :=
  match o with
  | none => some t
  | some u => if u < t then some t else some u

/-- Specification-side latest (maximum) element of a time list, `none`
for the empty list. -/
def latestTime (l : List Time) : Option Time :=
  l.foldl maxOpt none

/-- Embeds `IBBroker.get_order_fills_from_executions`. -/
def orderFillsFromExecutions (b : Broker) (tr : IBTrade) : List Fill :=
  b.fills.filter (fun f => f.execution.permId == tr.order.permId)

/-- The fill list `refresh_order` aggregates: the trade's own fills, or
the session executions filtered by broker order id when the trade carries
none. -/
def effectiveFills (b : Broker) (tr : IBTrade) : List Fill :=
  if tr.fills = [] then orderFillsFromExecutions b tr else tr.fills

/-- Embeds `IBBroker.refresh_order`: derive the status, aggregate the
fills, and update the order in place; returns `false` (no update) when no
trade record was located. -/
def refreshOrder (b : Broker) (o : Order) (tr : Option IBTrade) (now : Time) :
    Order × Bool :=
  match tr with
  | none => (o, false)
  | some tr =>
      let status := tradeStatus tr
      let agg := aggregateFills (effectiveFills b tr)
      let avg_price := if agg.qty ≠ 0 then agg.total / agg.qty else 0
      let completed_at := if status = .OK then agg.latest else none
      (o.update status o.sent_at completed_at agg.qty avg_price agg.commission
        (some tr.order.orderType) (some tr.orderStatus.status) now, true)

/-! ## ib_service.py: refresh_account -/

/-- Mutable state of the `IBBroker` service threaded through a refresh:
the account being refreshed, the market-data cache, the private
`__position_chart_data` association (keyed by position identity), and the
fresh-identity counter. -/
structure SvcState where
  account : Account
  md : Server
  chart : List (ℕ × ChartData)
  nextPid : ℕ

/-- Embeds `IBBroker.find_position_chart_data_index` (identity search). -/
def findChartIdx (l : List (ℕ × ChartData)) (pid : ℕ) : Option ℕ :=
  l.findIdx? (fun t => t.1 == pid)

/-- Embeds `IBBroker.store_position_chart_data`. -/
def storeChart (l : List (ℕ × ChartData)) (pid : ℕ) (cd : ChartData) :
    List (ℕ × ChartData) :=
  match findChartIdx l pid with
  | some i => l.set i (pid, cd)
  | none => l ++ [(pid, cd)]

/-- Embeds `IBBroker.clear_position_chart_data`. -/
def clearChart (l : List (ℕ × ChartData)) (pid : ℕ) : List (ℕ × ChartData) :=
  match findChartIdx l pid with
  | some i => l.eraseIdx i
  | none => l

/-- First local position matching a symbol, as the inner
`for position in account.positions: if position.symbol == symbol` loop. -/
def findPosIdx (ps : List Position) (symbol : String) : Option ℕ :=
  ps.findIdx? (fun p => p.symbol == symbol)

/-- The `Position` object built and immediately P&L-updated by the
`not found` branch of the position loop: constructed with the broker
quantity, average cost and `avgCost * abs(position)` value, then
`update_pnl` applied to the subscription's last value (its `None`/`nan`
guard is internal). -/
def newPositionOf (pid : ℕ) (symbol : String) (ibp : IBPosition)
    (lastV : Option ℚ) (now : Time) : Position :=
  (Position.create pid symbol ibp.position ibp.avgCost
      (ibp.avgCost * |(ibp.position : ℚ)|) now).update_pnl
    (lastV.map .num) now

/-- One iteration of the broker-position loop of
`IBBroker.refresh_account`: update a matching local position in place
(P&L only behind the truthiness test of the last value), or construct a
new one appended to the account (the SQLAlchemy back-reference of
`Position.__init__`); either way (re)establish the market-data
subscription and store the chart data under the position's identity. -/
def refreshOnePosition (b : Broker) (st : SvcState) (ibp : IBPosition)
    (now : Time) : SvcState :=
  let symbol := canonicalSymbol ibp.contract
  match findPosIdx st.account.positions symbol with
  | some i =>
      match st.account.positions[i]? with
      | some pos =>
          let pos1 := pos.update ibp.position ibp.avgCost
            (ibp.avgCost * |(ibp.position : ℚ)|) now
          let pq := st.md.query b.hist (ContractQuery ibp.contract .DAY)
          let chart1 := storeChart st.chart pos1.pid (pq.1.getChartData now)
          let lastV := pq.1.getLastValue
          let pos2 := if pyTruthy lastV then pos1.update_pnl (lastV.map .num) now
                      else pos1
          { st with account := { st.account with
                      positions := st.account.positions.set i pos2 },
                    md := pq.2, chart := chart1 }
      | none => st
  | none =>
      let pq := st.md.query b.hist (ContractQuery ibp.contract .DAY)
      let chart1 := storeChart st.chart st.nextPid (pq.1.getChartData now)
      let addPos := newPositionOf st.nextPid symbol ibp pq.1.getLastValue now
      { st with account := { st.account with
                  positions := st.account.positions ++ [addPos] },
                md := pq.2, chart := chart1, nextPid := st.nextPid + 1 }

/-- The broker-position loop: processes each broker position and collects
the canonical symbols seen. -/
def positionsPhase (b : Broker) (st : SvcState) (now : Time) :
    SvcState × List String :=
  b.positions.foldl
    (fun acc ibp =>
      (refreshOnePosition b acc.1 ibp now,
       acc.2 ++ [canonicalSymbol ibp.contract]))
    (st, [])

/-- The removal loop of `IBBroker.refresh_account`, iterating the position
indices downward: a position whose symbol was not seen in the broker list
has its chart data cleared, its market-data subscription release
attempted (`Server.removeQuery`, which may raise), and is deleted.  An
error stops the loop with the state mutated so far. -/
def removePositions (symbols : List String) (st : SvcState) :
    List ℕ → SvcState × Option PyErr
  | [] => (st, none)
  | i :: rest =>
      match st.account.positions[i]? with
      | none => removePositions symbols st rest
      | some pos =>
          if symbols.contains pos.symbol then removePositions symbols st rest
          else
            let st1 := { st with chart := clearChart st.chart pos.pid }
            match st1.md.removeQuery (StockQuery pos.symbol .DAY) with
            | .error e => (st1, some e)
            | .ok md1 =>
                removePositions symbols
                  { st1 with md := md1,
                             account := { st1.account with
                               positions := st1.account.positions.eraseIdx i } }
                  rest

/-- One iteration of the trade loop of `IBBroker.refresh_account`: match a
local order by broker id and refresh it in place, or create a new order
seeded from the trade (appended to the account via the SQLAlchemy
back-reference) and refresh it. -/
def refreshOneOrder (b : Broker) (st : SvcState) (tr : IBTrade) (now : Time) :
    SvcState :=
  let symbol := canonicalSymbol tr.contract
  match st.account.orders.findIdx? (fun o => o.ib_id == tr.order.permId) with
  | some i =>
      match st.account.orders[i]? with
      | some o =>
          { st with account := { st.account with
              orders := st.account.orders.set i
                (refreshOrder b o (some tr) now).1 } }
      | none => st
  | none =>
      let addOrd := Order.create symbol tr.order.action tr.order.totalQuantity
        tr.order.lmtPrice tr.order.permId now
      { st with account := { st.account with
          orders := st.account.orders
            ++ [(refreshOrder b addOrd (some tr) now).1] } }

/-- The trade loop over `app.trades() + app.reqCompletedOrders(False)`
(the preceding `reqAllOpenOrders()` call only refreshes the session's
trade list on the broker side). -/
def ordersPhase (b : Broker) (st : SvcState) (now : Time) : SvcState :=
  (b.trades ++ b.completedTrades).foldl
    (fun st tr => refreshOneOrder b st tr now) st

/-- The four local accumulators of the account-summary loop. -/
structure SummaryVals where
  total_cash_value : ℚ
  available_funds : ℚ
  net_liquidation : ℚ
  day_trades_remaining : ℚ
deriving DecidableEq

/-- One iteration of the account-summary loop: rows of other accounts are
skipped; a recognised tag overwrites its accumulator. -/
def summaryStep (code : String) (acc : SummaryVals) (r : AccountSummaryRow) :
    SummaryVals :=
  if r.account = code then
    if r.tag = "TotalCashValue" then { acc with total_cash_value := r.value }
    else if r.tag = "AvailableFunds" then { acc with available_funds := r.value }
    else if r.tag = "NetLiquidation" then { acc with net_liquidation := r.value }
    else if r.tag = "DayTradesRemaining" then
      { acc with day_trades_remaining := r.value }
    else acc
  else acc

/-- The account-summary loop of `IBBroker.refresh_account`, starting from
the four zero-initialised accumulators. -/
def summaryVals (rows : List AccountSummaryRow) (code : String) : SummaryVals :=
  rows.foldl (summaryStep code)
    { total_cash_value := 0, available_funds := 0, net_liquidation := 0,
      day_trades_remaining := 0 }

/-- The account-summary fields (code and the four figures of the atomic
update), used to state that the position/order phases leave them
untouched. -/
def acctSummarySnapshot (a : Account) : String × ℚ × ℚ × ℚ × ℚ :=
  (a.code, a.total_value, a.cash_value, a.available_funds,
   a.day_trades_remaining)

/-- The phases of `IBBroker.refresh_account` that follow the atomic
summary update: the position loop, the removal loop (whose raise, if any,
aborts the refresh with the state mutated so far), and the trade loop. -/
def refreshRest (b : Broker) (st1 : SvcState) (now : Time) :
    SvcState × Option PyErr :=
  let ps := positionsPhase b st1 now
  let rem := removePositions ps.2 ps.1
    (List.range ps.1.account.positions.length).reverse
  match rem.2 with
  | some e => (rem.1, some e)
  | none => (ordersPhase b rem.1 now, none)

/-- Embeds `IBBroker.refresh_account`: authenticate the account code (a
mismatch raises before any mutation), apply the summary figures as one
atomic `Account.update`, then run the position, removal and trade loops
(`refreshRest`). -/
def refreshAccount (b : Broker) (st : SvcState) (now : Time) :
    SvcState × Option PyErr :=
  match getAccountCode b with
  | none => (st, some .accountSelectionError)
  | some code =>
      if st.account.code ≠ code then (st, some .accountMismatch)
      else
        let v := summaryVals b.summary st.account.code
        let st1 := { st with account := (st.account.update v.net_liquidation
          v.total_cash_value v.available_funds v.day_trades_remaining now) }
        refreshRest b st1 now

/-! ## ib_service.py: create_contract -/

/-- Venue rank used to justify termination of the recursive fallback
(`SMART` may recurse to `ISLAND`, `ISLAND` may recurse to `NYSE`). -/
def exchangeRank : String → ℕ
  | "SMART" => 2
  | "ISLAND" => 1
  | _ => 0

/-- Embeds `IBBroker.create_contract`.  Returns the resolved contract (or
`none`), the updated memoisation dict `self.contracts`, and — for
reasoning about the lookup policy — the trace of `(symbol, exchange)`
pairs passed to `reqContractDetails` (whose candidate count the broker
oracle `detailCount` reports).  Exactly one candidate resolves and is
cached; several candidates retry on `ISLAND` only from `SMART`; zero
candidates retry on `NYSE` only from `ISLAND`, otherwise fail. -/
def createContract (b : Broker) (contracts : List (String × Contract))
    (symbol exchange : String) :
    Option Contract × List (String × Contract) × List (String × String) :=
  match contracts.find? (fun t => t.1 == symbol) with
  | some t => (some t.2, contracts, [])
  | none =>
      let ib_contract := mkStock symbol exchange "USD"
      let n := b.detailCount symbol exchange
      if n = 1 then
        (some ib_contract, contracts ++ [(symbol, ib_contract)],
         [(symbol, exchange)])
      else if 1 < n then
        if _h : exchange = "SMART" then
          let r := createContract b contracts symbol "ISLAND"
          (r.1, r.2.1, (symbol, exchange) :: r.2.2)
        else (none, contracts, [(symbol, exchange)])
      else
        if _h : exchange = "ISLAND" then
          let r := createContract b contracts symbol "NYSE"
          (r.1, r.2.1, (symbol, exchange) :: r.2.2)
        else (none, contracts, [(symbol, exchange)])
termination_by exchangeRank exchange
decreasing_by
  · simp [_h, exchangeRank]
  · simp [_h, exchangeRank]

/-! ## Concrete instances used by witnesses and counterexamples -/

/-- A broker whose snapshots are all empty. -/
def emptyBroker : Broker :=
  { summary := [], positions := [], trades := [], completedTrades := [],
    fills := [], hist := fun _ _ => [], detailCount := fun _ _ => 0 }

/-- An account fixture with zeroed summary figures. -/
def testAccount (code : String) (ps : List Position) : Account :=
  { code := code, total_value := 0, cash_value := 0, available_funds := 0,
    day_trades_remaining := 0, created_at := 0, updated_at := 0,
    positions := ps, orders := [] }

/-- A service-state fixture. -/
def testState (a : Account) (md : Server) : SvcState :=
  { account := a, md := md, chart := [], nextPid := 10 }

/-- A broker-side GOOGL stock contract as `app.positions()` reports it: a
plain `Contract` instance carrying a `conId`, so its repr differs from
the fresh `Stock` built by `StockQuery`. -/
def contractGooglFull : Contract :=
  { cls := "Contract", symbol := "GOOGL", secType := "STK",
    exchange := "SMART", currency := "USD", conId := 42,
    lastTradeDateOrContractMonth := "", strike := 0, right := "" }

/-- The cached market-data subscription of the GOOGL position, keyed by
the broker-side contract. -/
def subGoogl : Query :=
  { symbol := "GOOGL", duration := .DAY, contract := contractGooglFull,
    ib_bars := [] }

/-- A market-data cache holding exactly the GOOGL subscription. -/
def srvGoogl : Server :=
  { queries := [subGoogl] }

/-- A cache holding a subscription stored under the exact `StockQuery`
key, the shape a release call would match. -/
def srvStockKey : Server :=
  { queries := [StockQuery "GOOGL" .DAY] }

/-- A trade fixture: done-and-filled with two attached fills
(5 shares at 100 and 5 shares at 102, commission 1 each). -/
def trFilled : IBTrade :=
  { contract := mkStock "GOOGL" "SMART" "USD",
    order := { action := .BUY, totalQuantity := 10, lmtPrice := some 101,
               permId := 77, orderType := "LMT" },
    orderStatus := { status := "Filled" },
    fills :=
      [{ time := 1,
         execution := { price := 100, avgPrice := 100, shares := 5, permId := 77 },
         commissionReport := { commission := 1 } },
       { time := 2,
         execution := { price := 102, avgPrice := 102, shares := 5, permId := 77 },
         commissionReport := { commission := 1 } }] }

/-- An order fixture matching `trFilled` by broker id. -/
def ordFix : Order :=
  Order.create "GOOGL" .BUY 10 (some 101) 77 0

/-- A local GOOGL position fixture. -/
def posGoogl : Position :=
  Position.create 0 "GOOGL" 2 200 400 0

/-- Service state holding the GOOGL position and its cached market-data
subscription (stored, as during a refresh, under the broker-side contract
key). -/
def stGoogl : SvcState :=
  testState (testAccount "prime" [posGoogl]) srvGoogl

/-- A broker authenticated as `prime` that no longer reports any
position. -/
def bPrime : Broker :=
  { emptyBroker with
    summary := [{ account := "prime", tag := "NetLiquidation", value := 3000 }] }

/-- A broker-side FB contract (with a `conId`, as reported by
`app.positions()`). -/
def contractFB : Contract :=
  { cls := "Contract", symbol := "FB", secType := "STK", exchange := "",
    currency := "USD", conId := 7, lastTradeDateOrContractMonth := "",
    strike := 0, right := "" }

/-- A broker position: 3 FB at an average cost of 301. -/
def ibPosFB : IBPosition :=
  { contract := contractFB, position := 3, avgCost := 301 }

/-- One historical bar whose average value is 20. -/
def barFB : Bar := { open_ := 20, close := 0, date := 1 }

/-- A broker authenticated as `prime` reporting the FB position, with
market data available for every subscription. -/
def bFB : Broker :=
  { emptyBroker with
    summary := [{ account := "prime", tag := "NetLiquidation", value := 3000 }],
    positions := [ibPosFB],
    hist := fun _ _ => [barFB] }

/-- A service state for `prime` with no local positions yet. -/
def stPrime : SvcState := testState (testAccount "prime" []) { queries := [] }

/-- A broker authenticated as `prime` whose summary snapshot carries none
of the four recognised tags. -/
def bTagless : Broker :=
  { emptyBroker with
    summary := [{ account := "prime", tag := "Foo", value := 5 }] }

/-- A `prime` account holding non-zero summary figures. -/
def richAccount : Account :=
  { testAccount "prime" [] with
    total_value := 7, cash_value := 8, available_funds := 9,
    day_trades_remaining := 2 }

/-- A `prime` state whose account holds non-zero summary figures. -/
def stRich : SvcState :=
  testState richAccount { queries := [] }

/-! ## Theorems -/

/-- C10: for every `Position` and every `last_price` that is `None` or
`nan`, `update_pnl` leaves every field of the position unchanged. -/
theorem update_pnl_none_nan_noop (p : Position) (lp : Option PFloat)
    (now : Time) (h : lp = none ∨ lp = some .nan) :
    p.update_pnl lp now = p := by
  rcases h with h | h <;> subst h <;> rfl

/-- Witness for C10 at a concrete position and a `None` price. -/
theorem update_pnl_none_nan_noop_witness :
    ((none : Option PFloat) = none ∨ (none : Option PFloat) = some .nan) ∧
      (Position.create 3 "MSFT" 1 100 100 0).update_pnl none 5 =
        Position.create 3 "MSFT" 1 100 100 0 :=
  ⟨Or.inl rfl,
   update_pnl_none_nan_noop (Position.create 3 "MSFT" 1 100 100 0) none 5
     (Or.inl rfl)⟩

/-- C2: whenever the broker's authenticated account code differs from the
account being refreshed, `refresh_account` raises the mismatch error
(`ValueError`, named `AccountMismatch` by the spec) and the returned
state is exactly the input state: summary fields, positions and orders
are untouched. -/
theorem refresh_account_mismatch_no_mutation (b : Broker) (st : SvcState)
    (now : Time) (c : String) (hc : getAccountCode b = some c)
    (hne : st.account.code ≠ c) :
    refreshAccount b st now = (st, some .accountMismatch) := by
  unfold refreshAccount
  rw [hc]
  simp [hne]

/-- Witness for C2: account `A` refreshed while the broker authenticates
`B`. -/
theorem refresh_account_mismatch_no_mutation_witness :
    getAccountCode { emptyBroker with
        summary := [{ account := "B", tag := "NetLiquidation", value := 1 }] } =
      some "B" ∧
    ("A" : String) ≠ "B" ∧
    refreshAccount
        { emptyBroker with
          summary := [{ account := "B", tag := "NetLiquidation", value := 1 }] }
        (testState (testAccount "A" []) { queries := [] }) 1 =
      (testState (testAccount "A" []) { queries := [] },
       some .accountMismatch) := by
  refine ⟨rfl, by decide, ?_⟩
  exact refresh_account_mismatch_no_mutation _ _ 1 "B" rfl (by decide)

/-- C5 (divergence witness): releasing a key with a matching cached
subscription does not cancel and remove it — the removal loop raises
`TypeError` on its first iteration (`for i, q in self.queries:` unpacks a
`Query` into a pair; the `del self.queries[i]` below it shows the
intended `enumerate`) — while releasing an absent key is indeed a no-op
that leaves the cache unchanged. -/
theorem remove_query_raises_on_match :
    srvStockKey.removeQuery (StockQuery "GOOGL" .DAY) = .error .typeError ∧
    srvStockKey.removeQuery (StockQuery "MSFT" .DAY) = .ok srvStockKey ∧
    srvStockKey.findQuery (StockQuery "GOOGL" .DAY) ≠ none := by
  refine ⟨rfl, rfl, by decide⟩

/-- C3: the order-status mapping of `refresh_order` partitions the broker
status strings exactly: `OK` on done-and-filled, `CANCD` on done and not
filled, `ACTIVE` on the recognised submitted state or pending-cancel,
`SENT` on the remaining actively-working states, and `ERROR` on every
state that is neither done, nor active, nor pending-cancel (e.g.
`Inactive`). -/
theorem order_status_mapping_partition (tr : IBTrade) :
    (tradeStatus tr = .OK ↔
      tr.isDone = true ∧ tr.orderStatus.status = "Filled") ∧
    (tradeStatus tr = .CANCD ↔
      tr.isDone = true ∧ tr.orderStatus.status ≠ "Filled") ∧
    (tradeStatus tr = .ACTIVE ↔
      tr.orderStatus.status = "Submitted" ∨
        tr.orderStatus.status = "PendingCancel") ∧
    (tradeStatus tr = .SENT ↔
      tr.isActive = true ∧ tr.orderStatus.status ≠ "Submitted") ∧
    (tradeStatus tr = .ERROR ↔
      tr.isDone = false ∧ tr.isActive = false ∧
        tr.orderStatus.status ≠ "PendingCancel") := by
  rcases tr with ⟨c, o, ⟨s⟩, fs⟩
  simp only [tradeStatus, mapStatus, IBTrade.isDone, IBTrade.isActive,
    doneStates, activeStates]
  by_cases h1 : s = "Filled"
  · subst h1; simp
  by_cases h2 : s = "Cancelled"
  · subst h2; simp
  by_cases h3 : s = "ApiCancelled"
  · subst h3; simp
  by_cases h4 : s = "PendingSubmit"
  · subst h4; simp
  by_cases h5 : s = "ApiPending"
  · subst h5; simp
  by_cases h6 : s = "PreSubmitted"
  · subst h6; simp
  by_cases h7 : s = "Submitted"
  · subst h7; simp
  by_cases h8 : s = "PendingCancel"
  · subst h8; simp
  simp [h1, h2, h3, h4, h5, h6, h7, h8]

/-- The `latest_fill_time` update of the fill loop is the optional-max
step. -/
theorem fillStep_latest (acc : FillAgg) (f : Fill) :
    (fillStep acc f).latest = maxOpt acc.latest f.time := by
  cases acc with
  | mk latest qty total commission => cases latest <;> rfl

/-- Component-wise description of the fill-loop fold: running sums of the
shares, the price-weighted shares and the commissions, and the running
optional maximum of the fill times. -/
theorem foldl_fillStep_spec (fills : List Fill) (acc : FillAgg) :
    (fills.foldl fillStep acc).qty =
      acc.qty + (fills.map (fun f => f.execution.shares)).sum ∧
    (fills.foldl fillStep acc).total =
      acc.total + (fills.map (fun f => fillPrice f * f.execution.shares)).sum ∧
    (fills.foldl fillStep acc).commission =
      acc.commission + (fills.map (fun f => f.commissionReport.commission)).sum ∧
    (fills.foldl fillStep acc).latest =
      (fills.map (fun f => f.time)).foldl maxOpt acc.latest := by
  induction fills generalizing acc with
  | nil => simp
  | cons f t ih =>
      obtain ⟨h1, h2, h3, h4⟩ := ih (fillStep acc f)
      refine ⟨?_, ?_, ?_, ?_⟩
      · rw [List.foldl_cons, h1]; simp [fillStep]; ring
      · rw [List.foldl_cons, h2]; simp [fillStep]; ring
      · rw [List.foldl_cons, h3]; simp [fillStep]; ring
      · rw [List.foldl_cons, h4, fillStep_latest, List.map_cons,
          List.foldl_cons]

/-- The optional-max step always produces a value bounding its inputs. -/
theorem maxOpt_bounds (o : Option Time) (t : Time) :
    ∃ v, maxOpt o t = some v ∧ t ≤ v ∧ (∀ a, o = some a → a ≤ v) ∧
      (v = t ∨ o = some v) := by
  cases o with
  | none => exact ⟨t, rfl, le_refl t, by simp, Or.inl rfl⟩
  | some u =>
      by_cases h : u < t
      · refine ⟨t, by simp [maxOpt, h], le_refl t, ?_, Or.inl rfl⟩
        intro a ha
        cases ha
        exact le_of_lt h
      · refine ⟨u, by simp [maxOpt, h], Nat.le_of_not_lt h, ?_, Or.inr rfl⟩
        intro a ha
        cases ha
        exact le_refl u

/-- Folding the optional max never loses a seeded value. -/
theorem foldl_maxOpt_none_iff (l : List Time) :
    ∀ o : Option Time, l.foldl maxOpt o = none ↔ l = [] ∧ o = none := by
  induction l with
  | nil => simp
  | cons t l ih =>
      intro o
      rw [List.foldl_cons, ih]
      obtain ⟨v, hv, -⟩ := maxOpt_bounds o t
      simp [hv]

/-- Folding the optional max yields a maximum: a member of the list (or
the seed) bounding every list element and the seed. -/
theorem foldl_maxOpt_le (l : List Time) :
    ∀ (o : Option Time) (m : Time), l.foldl maxOpt o = some m →
      (m ∈ l ∨ o = some m) ∧ (∀ u ∈ l, u ≤ m) ∧
        (∀ a, o = some a → a ≤ m) := by
  induction l with
  | nil =>
      intro o m h
      simp only [List.foldl_nil] at h
      refine ⟨Or.inr h, by simp, ?_⟩
      intro a ha
      rw [h] at ha
      cases ha
      exact le_refl m
  | cons t l ih =>
      intro o m h
      rw [List.foldl_cons] at h
      obtain ⟨hm, hub, hinit⟩ := ih (maxOpt o t) m h
      obtain ⟨v, hv, htv, hov, hvor⟩ := maxOpt_bounds o t
      have hvm : v ≤ m := hinit v hv
      refine ⟨?_, ?_, ?_⟩
      · rcases hm with hml | hme
        · exact Or.inl (List.mem_cons_of_mem _ hml)
        · rw [hv] at hme
          injection hme with hme
          subst hme
          rcases hvor with rfl | ho
          · exact Or.inl (List.mem_cons_self _ _)
          · exact Or.inr ho
      · intro u hu
        rcases List.mem_cons.mp hu with rfl | hul
        · exact le_trans htv hvm
        · exact hub u hul
      · intro a ha
        exact le_trans (hov a ha) hvm

/-- C4: for every trade, `refresh_order` writes the cumulative filled
quantity as the sum of the per-fill shares, the volume-weighted average
price (zero when the share sum is zero, in particular with no fills; the
per-fill price is `fillPrice`: execution price, falling back to the
execution average price when absent), the cumulative commission as the
sum of per-fill commissions, and `completed_at` as the latest (maximum)
fill timestamp exactly when the derived status is `OK`, otherwise
`none`. -/
theorem refresh_order_fill_aggregation (b : Broker) (o : Order)
    (tr : IBTrade) (now : Time) :
    ((refreshOrder b o (some tr) now).1.qty =
      ((effectiveFills b tr).map (fun f => f.execution.shares)).sum) ∧
    ((refreshOrder b o (some tr) now).1.avg_price =
      (if ((effectiveFills b tr).map (fun f => f.execution.shares)).sum = 0
       then 0
       else ((effectiveFills b tr).map
              (fun f => fillPrice f * f.execution.shares)).sum /
            ((effectiveFills b tr).map (fun f => f.execution.shares)).sum)) ∧
    ((refreshOrder b o (some tr) now).1.commission =
      ((effectiveFills b tr).map (fun f => f.commissionReport.commission)).sum) ∧
    ((refreshOrder b o (some tr) now).1.completed_at =
      (if tradeStatus tr = .OK
       then latestTime ((effectiveFills b tr).map (fun f => f.time))
       else none)) ∧
    (latestTime ((effectiveFills b tr).map (fun f => f.time)) = none ↔
      effectiveFills b tr = []) ∧
    (∀ m, latestTime ((effectiveFills b tr).map (fun f => f.time)) = some m →
      m ∈ (effectiveFills b tr).map (fun f => f.time) ∧
        ∀ u ∈ (effectiveFills b tr).map (fun f => f.time), u ≤ m) := by
  obtain ⟨h1, h2, h3, h4⟩ :=
    foldl_fillStep_spec (effectiveFills b tr)
      { latest := none, qty := 0, total := 0, commission := 0 }
  simp only [zero_add] at h1 h2 h3
  refine ⟨?_, ?_, ?_, ?_, ?_, ?_⟩
  · simp [refreshOrder, Order.update, aggregateFills, h1]
  · simp only [refreshOrder, Order.update, aggregateFills]
    rw [h1, h2]
    by_cases hq :
        ((effectiveFills b tr).map (fun f => f.execution.shares)).sum = 0 <;>
      simp [hq]
  · simp [refreshOrder, Order.update, aggregateFills, h3]
  · simp only [refreshOrder, Order.update, aggregateFills]
    rw [h4]
    rfl
  · rw [latestTime, foldl_maxOpt_none_iff]
    simp
  · intro m hm
    rw [latestTime] at hm
    obtain ⟨hmem, hub, -⟩ :=
      foldl_maxOpt_le ((effectiveFills b tr).map (fun f => f.time)) none m hm
    refine ⟨?_, hub⟩
    rcases hmem with hmem | hmem
    · exact hmem
    · cases hmem

/-- Witness for C4 on the two-fill scenario: quantity 10, average price
101, commission 2, completion at the later fill time. -/
theorem refresh_order_fill_aggregation_witness :
    (refreshOrder emptyBroker ordFix (some trFilled) 9).1.qty = 10 ∧
    (refreshOrder emptyBroker ordFix (some trFilled) 9).1.avg_price = 101 ∧
    (refreshOrder emptyBroker ordFix (some trFilled) 9).1.commission = 2 ∧
    (refreshOrder emptyBroker ordFix (some trFilled) 9).1.completed_at =
      some 2 := by
  have h := refresh_order_fill_aggregation emptyBroker ordFix trFilled 9
  have heff : effectiveFills emptyBroker trFilled = trFilled.fills := rfl
  refine ⟨?_, ?_, ?_, ?_⟩
  · rw [h.1, heff]; norm_num [trFilled]
  · rw [h.2.1, heff]; norm_num [trFilled, fillPrice]
  · rw [h.2.2.1, heff]; norm_num [trFilled]
  · rw [h.2.2.2.1, heff]
    norm_num [trFilled, latestTime, maxOpt, tradeStatus, mapStatus,
      doneStates]

/-- The zeroth resample bucket boundary is zero. -/
theorem bIdx_zero (n k : ℕ) : bIdx n k 0 = 0 := by
  simp [bIdx]

/-- The final resample bucket boundary is the series length. -/
theorem bIdx_top (n k : ℕ) (hk : 0 < k) : bIdx n k k = n := by
  unfold bIdx
  exact Nat.mul_div_cancel_left n hk

/-- Bucket boundaries are monotone. -/
theorem bIdx_mono (n k i : ℕ) : bIdx n k i ≤ bIdx n k (i + 1) :=
  Nat.div_le_div_right (Nat.mul_le_mul_right n (Nat.le_succ i))

/-- Bucket boundaries stay within the series. -/
theorem bIdx_le (n k i : ℕ) (hik : i ≤ k) (hk : 0 < k) : bIdx n k i ≤ n := by
  unfold bIdx
  calc i * n / k ≤ k * n / k :=
        Nat.div_le_div_right (Nat.mul_le_mul_right n hik)
    _ = n := Nat.mul_div_cancel_left n hk

/-- With fewer buckets than samples every bucket is non-empty. -/
theorem bIdx_strict_mono (n k i : ℕ) (hkn : k < n) (hk : 0 < k) :
    bIdx n k i < bIdx n k (i + 1) := by
  unfold bIdx
  have h1 : i * n / k < (i * n + k) / k := by
    rw [Nat.add_div_right _ hk]
    exact Nat.lt_succ_self _
  have h2 : (i * n + k) / k ≤ (i + 1) * n / k := by
    refine Nat.div_le_div_right ?_
    rw [Nat.succ_mul]
    exact Nat.add_le_add_left (le_of_lt hkn) _
  exact lt_of_lt_of_le h1 h2

/-- Length of a Python slice lying inside the list. -/
theorem pySlice_length (l : List ℚ) (a b : ℕ) (hab : a ≤ b)
    (hb : b ≤ l.length) : (pySlice l a b).length = b - a := by
  simp only [pySlice, List.length_take, List.length_drop]
  omega

/-- Concatenating the slices cut at monotone boundaries starting from
zero reconstructs the prefix up to the last boundary. -/
theorem join_slices_take (l : List ℚ) (bnd : ℕ → ℕ) (h0 : bnd 0 = 0)
    (hmono : ∀ i, bnd i ≤ bnd (i + 1)) :
    ∀ j, ((List.range j).map
        (fun i => pySlice l (bnd i) (bnd (i + 1)))).flatten =
      l.take (bnd j) := by
  intro j
  induction j with
  | zero => simp [h0]
  | succ j ih =>
      rw [List.range_succ, List.map_append, List.flatten_append, ih]
      simp only [List.map_cons, List.map_nil, List.flatten_cons,
        List.flatten_nil, List.append_nil, pySlice]
      rw [← List.take_add]
      rw [Nat.add_sub_cancel' (hmono j)]

/-- C8 (amended): `resample` returns the series unchanged when the target
length is at least the series length; for a smaller target it returns
exactly `k` values, and — when additionally `k ≥ 1` — the `i`-th value is
the arithmetic mean of the slice at the bucket boundaries
`⌊i*n/k⌋ … ⌊(i+1)*n/k⌋`, whose ranges are strictly increasing from `0` to
`n` and whose slices concatenate back to the whole series (no gaps, no
overlaps).  For `k = 0 < n` the result is empty and the zero buckets
cover nothing. -/
theorem resample_spec (cd : ChartData) (k : ℕ) :
    (cd.values.length ≤ k → cd.resample k = cd.values) ∧
    (k < cd.values.length → (cd.resample k).length = k) ∧
    (0 < k → k < cd.values.length →
      (∀ i, i < k →
        (cd.resample k)[i]? = some
          ((pySlice cd.values (bIdx cd.values.length k i)
              (bIdx cd.values.length k (i + 1))).sum /
            ((pySlice cd.values (bIdx cd.values.length k i)
              (bIdx cd.values.length k (i + 1))).length : ℚ))) ∧
      bIdx cd.values.length k 0 = 0 ∧
      bIdx cd.values.length k k = cd.values.length ∧
      (∀ i, i < k →
        bIdx cd.values.length k i < bIdx cd.values.length k (i + 1)) ∧
      ((List.range k).map (fun i =>
        pySlice cd.values (bIdx cd.values.length k i)
          (bIdx cd.values.length k (i + 1)))).flatten = cd.values) := by
  refine ⟨?_, ?_, ?_⟩
  · intro h
    simp [ChartData.resample, h]
  · intro h
    simp [ChartData.resample, Nat.not_le.mpr h]
  · intro hk hkn
    refine ⟨?_, bIdx_zero _ _, bIdx_top _ _ hk, ?_, ?_⟩
    · intro i hik
      have hnle : ¬ cd.values.length ≤ k := Nat.not_le.mpr hkn
      have hub : bIdx cd.values.length k (i + 1) ≤ cd.values.length :=
        bIdx_le _ _ _ hik hk
      have hmin : min (bIdx cd.values.length k (i + 1)) cd.values.length =
          bIdx cd.values.length k (i + 1) := Nat.min_eq_left hub
      have hmono := bIdx_mono cd.values.length k i
      have hlen := pySlice_length cd.values _ _ hmono hub
      simp only [ChartData.resample, ge_iff_le, hnle, if_false,
        List.getElem?_map, List.getElem?_range hik, Option.map_some']
      rw [hmin, hlen, Nat.cast_sub hmono]
    · intro i _
      exact bIdx_strict_mono _ _ _ hkn hk
    · rw [join_slices_take cd.values _ (bIdx_zero _ _)
        (fun i => bIdx_mono _ _ i) k]
      rw [bIdx_top _ _ hk, List.take_length]

/-- Witness for C8 at a three-sample series resampled to two buckets. -/
theorem resample_spec_witness :
    (2 < (ChartData.mk [(1 : ℚ), 2, 3] 0 0).values.length) ∧
      ((ChartData.mk [(1 : ℚ), 2, 3] 0 0).resample 2).length = 2 :=
  ⟨by decide, (resample_spec (ChartData.mk [(1 : ℚ), 2, 3] 0 0) 2).2.1
    (by decide)⟩

/-- C8 (divergence witness): with target length `0` and a non-empty
series the code returns the empty list, so the (zero) bucket ranges do
not partition the index range — their concatenation misses the whole
series. -/
theorem resample_zero_target_no_partition :
    0 < ([(1 : ℚ), 2]).length ∧
    (ChartData.mk [(1 : ℚ), 2] 0 0).resample 0 = [] ∧
    ((List.range 0).map (fun i =>
      pySlice [(1 : ℚ), 2] (bIdx 2 0 i) (bIdx 2 0 (i + 1)))).flatten ≠
      [(1 : ℚ), 2] := by
  exact ⟨by decide, rfl, by simp⟩

/-- From a venue that is neither `SMART` nor `ISLAND` the resolution never
recurses, so at most one lookup is issued. -/
theorem createContract_len_other (b : Broker)
    (contracts : List (String × Contract)) (symbol exchange : String)
    (h1 : exchange ≠ "SMART") (h2 : exchange ≠ "ISLAND") :
    (createContract b contracts symbol exchange).2.2.length ≤ 1 := by
  unfold createContract
  split
  · simp
  · dsimp only
    split_ifs <;> simp_all

/-- From `ISLAND` at most two lookups are issued. -/
theorem createContract_len_island (b : Broker)
    (contracts : List (String × Contract)) (symbol : String) :
    (createContract b contracts symbol "ISLAND").2.2.length ≤ 2 := by
  unfold createContract
  split
  · simp
  · have h := createContract_len_other b contracts symbol "NYSE"
      (by decide) (by decide)
    dsimp only
    split_ifs <;> simp_all

/-- From any venue at most three contract-details lookups are issued. -/
theorem createContract_len_le (b : Broker)
    (contracts : List (String × Contract)) (symbol exchange : String) :
    (createContract b contracts symbol exchange).2.2.length ≤ 3 := by
  by_cases hS : exchange = "SMART"
  · subst hS
    unfold createContract
    split
    · simp
    · have h := createContract_len_island b contracts symbol
      dsimp only
      split_ifs <;> simp_all
  · by_cases hI : exchange = "ISLAND"
    · subst hI
      exact le_trans (createContract_len_island b contracts symbol)
        (by norm_num)
    · exact le_trans (createContract_len_other b contracts symbol exchange
        hS hI) (by norm_num)

/-- C6 (amended): with the symbol not memoised, zero candidates at the
aggregated `SMART` venue fail the resolution immediately — `Unresolved`
(`None`) after that single lookup, with no retry at any other venue — and
the resolution issues at most three lookups in total. -/
theorem create_contract_fallback_policy (b : Broker)
    (contracts : List (String × Contract)) (symbol : String)
    (hmiss : contracts.find? (fun t => t.1 == symbol) = none) :
    (b.detailCount symbol "SMART" = 0 →
      createContract b contracts symbol "SMART" =
        (none, contracts, [(symbol, "SMART")])) ∧
    (createContract b contracts symbol "SMART").2.2.length ≤ 3 := by
  constructor
  · intro h0
    unfold createContract
    rw [hmiss]
    simp [h0]
  · exact createContract_len_le b contracts symbol "SMART"

/-- Witness for C6 on an unmemoised symbol. -/
theorem create_contract_fallback_policy_witness :
    (([] : List (String × Contract)).find? (fun t => t.1 == "MSFT") = none) ∧
    (createContract emptyBroker [] "MSFT" "SMART").2.2.length ≤ 3 :=
  ⟨rfl, (create_contract_fallback_policy emptyBroker [] "MSFT" rfl).2⟩

/-- C6 (divergence witness): with zero candidates at every venue the code
returns `None` after the single `SMART` lookup — the secondary and
tertiary venues are never queried, contradicting the claimed
zero-candidate retry chain. -/
theorem create_contract_zero_smart_single_lookup :
    createContract emptyBroker [] "DUMMY" "SMART" =
      (none, [], [("DUMMY", "SMART")]) ∧
    ("DUMMY", "ISLAND") ∉ (createContract emptyBroker [] "DUMMY" "SMART").2.2 ∧
    ("DUMMY", "NYSE") ∉ (createContract emptyBroker [] "DUMMY" "SMART").2.2 := by
  have h : createContract emptyBroker [] "DUMMY" "SMART" =
      (none, [], [("DUMMY", "SMART")]) := by
    unfold createContract
    simp [emptyBroker]
  refine ⟨h, ?_, ?_⟩ <;> rw [h] <;> decide

/-- C1 (divergence witness): a successful refresh deletes the local
position the broker stopped reporting, and the symbol sets then match —
but the deleted position's market-data subscription is *not* released:
the release is keyed by a freshly built `StockQuery` contract whose repr
never equals the broker-contract key the subscription was cached under,
so `remove_query` no-ops and the cache still holds the subscription; and
had the key matched, `remove_query` would have raised `TypeError` instead
of cancelling (its iteration unpacks `Query` objects into pairs). -/
theorem refresh_delete_keeps_subscription :
    (refreshAccount bPrime stGoogl 5).2 = none ∧
    (refreshAccount bPrime stGoogl 5).1.account.positions = [] ∧
    (refreshAccount bPrime stGoogl 5).1.md = stGoogl.md ∧
    stGoogl.md.queries = [subGoogl] ∧
    srvStockKey.removeQuery (StockQuery "GOOGL" .DAY) = .error .typeError := by
  exact ⟨rfl, rfl, rfl, rfl, rfl⟩

/-- C7 (amended): the `not found` branch of the position loop constructs
the new position with the broker cost basis and immediately applies the
subscription's latest market value: the derived P&L stays zero (and the
current price stays at the entry price) only when the subscription has no
last value yet; when a last value `q` exists the current price becomes
`q` and the profit is recomputed from it at once, so it is generally
non-zero already at creation. -/
theorem new_position_pnl_spec (b : Broker) (st : SvcState) (ibp : IBPosition)
    (pid : ℕ) (symbol : String) (lastV : Option ℚ) (now : Time) :
    (newPositionOf pid symbol ibp lastV now).price = ibp.avgCost ∧
    (newPositionOf pid symbol ibp lastV now).value =
      ibp.avgCost * |(ibp.position : ℚ)| ∧
    (lastV = none →
      (newPositionOf pid symbol ibp lastV now).profit = 0 ∧
      (newPositionOf pid symbol ibp lastV now).profit_margin = 0 ∧
      (newPositionOf pid symbol ibp lastV now).current_price = ibp.avgCost ∧
      (newPositionOf pid symbol ibp lastV now).current_value =
        (newPositionOf pid symbol ibp lastV now).value) ∧
    (∀ q, lastV = some q →
      (newPositionOf pid symbol ibp lastV now).current_price = q ∧
      (newPositionOf pid symbol ibp lastV now).current_value =
        |(ibp.position : ℚ) * q| ∧
      (newPositionOf pid symbol ibp lastV now).profit =
        (if 0 ≤ ibp.position then
          |(ibp.position : ℚ) * q| - ibp.avgCost * |(ibp.position : ℚ)|
         else ibp.avgCost * |(ibp.position : ℚ)| - |(ibp.position : ℚ) * q|)) ∧
    (findPosIdx st.account.positions (canonicalSymbol ibp.contract) = none →
      (refreshOnePosition b st ibp now).account.positions =
        st.account.positions ++
          [newPositionOf st.nextPid (canonicalSymbol ibp.contract) ibp
            ((st.md.query b.hist
                (ContractQuery ibp.contract .DAY)).1.getLastValue) now]) := by
  refine ⟨?_, ?_, ?_, ?_, ?_⟩
  · cases lastV <;>
      simp [newPositionOf, Position.create, Position.update_pnl]
  · cases lastV <;>
      simp [newPositionOf, Position.create, Position.update_pnl]
  · intro h
    subst h
    simp [newPositionOf, Position.create, Position.update_pnl]
  · intro q h
    subst h
    simp [newPositionOf, Position.create, Position.update_pnl, ge_iff_le]
  · intro hfind
    simp [refreshOnePosition, hfind]

/-- Witness for C7 at the FB broker position: a known last value of 20 is
applied at once, while an empty subscription leaves the seeded zero
P&L. -/
theorem new_position_pnl_spec_witness :
    (newPositionOf 0 "FB" ibPosFB (some 20) 5).current_price = 20 ∧
    (newPositionOf 0 "FB" ibPosFB none 5).profit = 0 := by
  have hs := new_position_pnl_spec emptyBroker stPrime ibPosFB 0 "FB"
    (some 20) 5
  have hn := new_position_pnl_spec emptyBroker stPrime ibPosFB 0 "FB" none 5
  exact ⟨(hs.2.2.2.1 20 rfl).1, (hn.2.2.1 rfl).1⟩

/-- C7 (divergence witness): refreshing `prime` against a broker
reporting 3 FB at cost 301 with a live bar at 20 creates the position
with profit `60 − 903 = −843 ≠ 0` and current price `20 ≠ 301` — the
initial derived P&L of a freshly created position is not zero. -/
theorem new_position_immediate_pnl :
    (refreshAccount bFB stPrime 5).2 = none ∧
    ((refreshAccount bFB stPrime 5).1.account.positions.map
      (fun p => (p.symbol, p.price, p.current_price, p.profit))) =
      [("FB", (301 : ℚ), 20, -843)] ∧
    ((-843 : ℚ) ≠ 0) ∧ ((20 : ℚ) ≠ 301) := by
  refine ⟨rfl, ?_, by norm_num, by norm_num⟩
  simp [refreshAccount, refreshRest, getAccountCode, summaryVals,
    summaryStep, Account.update, positionsPhase, refreshOnePosition,
    findPosIdx,
    Server.query, Server.addQuery, Server.findQuery, ContractQuery,
    Query.getChartData, Query.getValues, Query.getValuesStartTime,
    Query.getValuesEndTime, Query.getLastValue, Query.extractBarAverage,
    storeChart, findChartIdx, newPositionOf, Position.create,
    Position.update_pnl, removePositions, clearChart, Server.removeQuery,
    StockQuery, mkStock, ordersPhase, refreshOneOrder, canonicalSymbol,
    testAccount, testState, stPrime, bFB, ibPosFB, barFB, contractFB,
    emptyBroker, pyTruthy, List.range_succ]
  norm_num

/-- The position loop body never touches the account code or the four
summary figures. -/
theorem refreshOnePosition_frame (b : Broker) (st : SvcState)
    (ibp : IBPosition) (now : Time) :
    acctSummarySnapshot (refreshOnePosition b st ibp now).account =
      acctSummarySnapshot st.account := by
  unfold refreshOnePosition
  cases hf : findPosIdx st.account.positions (canonicalSymbol ibp.contract) with
  | none => simp [hf, acctSummarySnapshot]
  | some i =>
      cases hg : st.account.positions[i]? with
      | none => simp [hf, hg]
      | some pos => simp [hf, hg, acctSummarySnapshot]

/-- The whole position loop never touches the account code or the four
summary figures. -/
theorem positionsPhase_frame_aux (b : Broker) (now : Time)
    (l : List IBPosition) :
    ∀ init : SvcState × List String,
      acctSummarySnapshot ((l.foldl (fun acc ibp =>
        (refreshOnePosition b acc.1 ibp now,
         acc.2 ++ [canonicalSymbol ibp.contract])) init)).1.account =
      acctSummarySnapshot init.1.account := by
  induction l with
  | nil => intro init; rfl
  | cons ibp t ih =>
      intro init
      rw [List.foldl_cons, ih]
      exact refreshOnePosition_frame b init.1 ibp now

/-- Snapshot preservation for `positionsPhase`. -/
theorem positionsPhase_frame (b : Broker) (st : SvcState) (now : Time) :
    acctSummarySnapshot (positionsPhase b st now).1.account =
      acctSummarySnapshot st.account :=
  positionsPhase_frame_aux b now b.positions (st, [])

/-- The removal loop deletes positions (and may stop on the release
error) but never touches the account code or the four summary figures. -/
theorem removePositions_frame (symbols : List String) (idxs : List ℕ) :
    ∀ st : SvcState,
      acctSummarySnapshot (removePositions symbols st idxs).1.account =
        acctSummarySnapshot st.account := by
  induction idxs with
  | nil => intro st; rfl
  | cons i rest ih =>
      intro st
      rw [removePositions]
      cases hg : st.account.positions[i]? with
      | none => simp [hg, ih]
      | some pos =>
          by_cases hm : pos.symbol ∈ symbols
          · simp [hg, hm, ih]
          · cases hr : st.md.removeQuery (StockQuery pos.symbol .DAY) with
            | error e => simp [hg, hm, hr, acctSummarySnapshot]
            | ok md1 =>
                have hm' : ¬(symbols.contains pos.symbol = true) := by
                  simpa using hm
                simp only [hg]
                rw [if_neg hm', hr]
                dsimp only
                rw [ih]
                simp [acctSummarySnapshot]

/-- The trade loop body never touches the account code or the four
summary figures. -/
theorem refreshOneOrder_frame (b : Broker) (st : SvcState) (tr : IBTrade)
    (now : Time) :
    acctSummarySnapshot (refreshOneOrder b st tr now).account =
      acctSummarySnapshot st.account := by
  unfold refreshOneOrder
  cases hf : st.account.orders.findIdx? (fun o => o.ib_id == tr.order.permId) with
  | none => simp [hf, acctSummarySnapshot]
  | some i =>
      cases hg : st.account.orders[i]? with
      | none => simp [hf, hg]
      | some o => simp [hf, hg, acctSummarySnapshot]

/-- The whole trade loop never touches the account code or the four
summary figures. -/
theorem ordersPhase_frame_aux (b : Broker) (now : Time) (l : List IBTrade) :
    ∀ st : SvcState,
      acctSummarySnapshot
        ((l.foldl (fun st tr => refreshOneOrder b st tr now) st)).account =
      acctSummarySnapshot st.account := by
  induction l with
  | nil => intro st; rfl
  | cons tr t ih =>
      intro st
      rw [List.foldl_cons, ih]
      exact refreshOneOrder_frame b st tr now

/-- Snapshot preservation for `ordersPhase`. -/
theorem ordersPhase_frame (b : Broker) (st : SvcState) (now : Time) :
    acctSummarySnapshot (ordersPhase b st now).account =
      acctSummarySnapshot st.account :=
  ordersPhase_frame_aux b now (b.trades ++ b.completedTrades) st

/-- The phases after the atomic summary update never touch the account
code or the four summary figures, whether or not the removal loop
raises. -/
theorem refreshRest_frame (b : Broker) (st1 : SvcState) (now : Time) :
    acctSummarySnapshot (refreshRest b st1 now).1.account =
      acctSummarySnapshot st1.account := by
  unfold refreshRest
  cases hr : (removePositions (positionsPhase b st1 now).2
      (positionsPhase b st1 now).1
      (List.range (positionsPhase b st1 now).1.account.positions.length).reverse).2 with
  | none =>
      simp only [hr]
      rw [ordersPhase_frame, removePositions_frame, positionsPhase_frame]
  | some e =>
      simp only [hr]
      rw [removePositions_frame, positionsPhase_frame]

/-- One summary-loop step leaves an accumulator field untouched unless
the row carries that field’s tag for the account. -/
theorem summaryStep_preserve (code : String) (acc : SummaryVals)
    (r : AccountSummaryRow) :
    (¬(r.account = code ∧ r.tag = "NetLiquidation") →
      (summaryStep code acc r).net_liquidation = acc.net_liquidation) ∧
    (¬(r.account = code ∧ r.tag = "TotalCashValue") →
      (summaryStep code acc r).total_cash_value = acc.total_cash_value) ∧
    (¬(r.account = code ∧ r.tag = "AvailableFunds") →
      (summaryStep code acc r).available_funds = acc.available_funds) ∧
    (¬(r.account = code ∧ r.tag = "DayTradesRemaining") →
      (summaryStep code acc r).day_trades_remaining =
        acc.day_trades_remaining) := by
  unfold summaryStep
  refine ⟨?_, ?_, ?_, ?_⟩ <;> intro h <;> split_ifs <;> simp_all

/-- A tag absent from the summary rows of the account leaves the
corresponding zero-initialised accumulator untouched. -/
theorem summaryFold_absent (code : String) (rows : List AccountSummaryRow) :
    ∀ acc : SummaryVals,
    ((∀ r ∈ rows, ¬(r.account = code ∧ r.tag = "NetLiquidation")) →
      (rows.foldl (summaryStep code) acc).net_liquidation =
        acc.net_liquidation) ∧
    ((∀ r ∈ rows, ¬(r.account = code ∧ r.tag = "TotalCashValue")) →
      (rows.foldl (summaryStep code) acc).total_cash_value =
        acc.total_cash_value) ∧
    ((∀ r ∈ rows, ¬(r.account = code ∧ r.tag = "AvailableFunds")) →
      (rows.foldl (summaryStep code) acc).available_funds =
        acc.available_funds) ∧
    ((∀ r ∈ rows, ¬(r.account = code ∧ r.tag = "DayTradesRemaining")) →
      (rows.foldl (summaryStep code) acc).day_trades_remaining =
        acc.day_trades_remaining) := by
  induction rows with
  | nil =>
      intro acc
      exact ⟨fun _ => rfl, fun _ => rfl, fun _ => rfl, fun _ => rfl⟩
  | cons r t ih =>
      intro acc
      refine ⟨?_, ?_, ?_, ?_⟩ <;> intro h <;> rw [List.foldl_cons]
      · rw [(ih (summaryStep code acc r)).1
          (fun x hx => h x (List.mem_cons_of_mem _ hx))]
        exact (summaryStep_preserve code acc r).1 (h r (List.mem_cons_self _ _))
      · rw [(ih (summaryStep code acc r)).2.1
          (fun x hx => h x (List.mem_cons_of_mem _ hx))]
        exact (summaryStep_preserve code acc r).2.1
          (h r (List.mem_cons_self _ _))
      · rw [(ih (summaryStep code acc r)).2.2.1
          (fun x hx => h x (List.mem_cons_of_mem _ hx))]
        exact (summaryStep_preserve code acc r).2.2.1
          (h r (List.mem_cons_self _ _))
      · rw [(ih (summaryStep code acc r)).2.2.2
          (fun x hx => h x (List.mem_cons_of_mem _ hx))]
        exact (summaryStep_preserve code acc r).2.2.2
          (h r (List.mem_cons_self _ _))

/-- C9: during a refresh that passes the account check, each of the four
summary fields whose broker tag is absent from the snapshot rows of that
account is set to zero by the atomic update (the accumulators start at
zero), not preserved at its previous value. -/
theorem refresh_missing_tags_zero (b : Broker) (st : SvcState) (now : Time)
    (hc : getAccountCode b = some st.account.code) :
    ((∀ r ∈ b.summary,
        ¬(r.account = st.account.code ∧ r.tag = "NetLiquidation")) →
      (refreshAccount b st now).1.account.total_value = 0) ∧
    ((∀ r ∈ b.summary,
        ¬(r.account = st.account.code ∧ r.tag = "TotalCashValue")) →
      (refreshAccount b st now).1.account.cash_value = 0) ∧
    ((∀ r ∈ b.summary,
        ¬(r.account = st.account.code ∧ r.tag = "AvailableFunds")) →
      (refreshAccount b st now).1.account.available_funds = 0) ∧
    ((∀ r ∈ b.summary,
        ¬(r.account = st.account.code ∧ r.tag = "DayTradesRemaining")) →
      (refreshAccount b st now).1.account.day_trades_remaining = 0) := by
  have hsnap : acctSummarySnapshot (refreshAccount b st now).1.account =
      (st.account.code,
       (summaryVals b.summary st.account.code).net_liquidation,
       (summaryVals b.summary st.account.code).total_cash_value,
       (summaryVals b.summary st.account.code).available_funds,
       (summaryVals b.summary st.account.code).day_trades_remaining) := by
    unfold refreshAccount
    rw [hc]
    simp only [ne_eq, not_true_eq_false, if_false]
    rw [refreshRest_frame]
    simp [acctSummarySnapshot, Account.update]
  obtain ⟨habs1, habs2, habs3, habs4⟩ :=
    summaryFold_absent st.account.code b.summary
      { total_cash_value := 0, available_funds := 0, net_liquidation := 0,
        day_trades_remaining := 0 }
  refine ⟨?_, ?_, ?_, ?_⟩ <;> intro h
  · have h1 := congrArg (fun t => t.2.1) hsnap
    simp only [acctSummarySnapshot] at h1
    rw [h1]
    exact habs1 h
  · have h1 := congrArg (fun t => t.2.2.1) hsnap
    simp only [acctSummarySnapshot] at h1
    rw [h1]
    exact habs2 h
  · have h1 := congrArg (fun t => t.2.2.2.1) hsnap
    simp only [acctSummarySnapshot] at h1
    rw [h1]
    exact habs3 h
  · have h1 := congrArg (fun t => t.2.2.2.2) hsnap
    simp only [acctSummarySnapshot] at h1
    rw [h1]
    exact habs4 h

/-- Witness for C9: a summary snapshot with none of the four tags zeroes
all four previously non-zero fields. -/
theorem refresh_missing_tags_zero_witness :
    getAccountCode bTagless = some "prime" ∧
    (refreshAccount bTagless stRich 3).1.account.total_value = 0 ∧
    (refreshAccount bTagless stRich 3).1.account.cash_value = 0 ∧
    (refreshAccount bTagless stRich 3).1.account.available_funds = 0 ∧
    (refreshAccount bTagless stRich 3).1.account.day_trades_remaining = 0 := by
  have h := refresh_missing_tags_zero bTagless stRich 3 rfl
  exact ⟨rfl, h.1 (by decide), h.2.1 (by decide), h.2.2.1 (by decide),
    h.2.2.2 (by decide)⟩
